import Mathlib

/-!
Shallow embedding of the process-bridge core of the arianna_method_anchor_protocol
repository: the Prompt-Framing Protocol, Process Supervisor (`LetsGoProcess` in
`bridge.py`), Session Registry (`websocket_endpoint` in `bridge.py`), and the
Line Terminal Loop (`letsgo.py`).

Byte streams are modelled as `List Char` (the payloads are text and `bridge.py`
decodes the buffer with `str.decode` before all slicing), fallible Python code
as `Except`, and the mutable supervisor object as explicit state passing.
-/

namespace Anchor

/-- Python whitespace for `str.strip()` / `str.split()`:
space, tab, newline, carriage return, vertical tab, form feed. -/
def pyIsSpace (c : Char) : Bool :=
  c = ' ' || c = '\t' || c = '\n' || c = '\r' || c = '\x0b' || c = '\x0c'

/-- `str.lstrip()`. -/
def pyLStrip (l : List Char) : List Char :=
  l.dropWhile pyIsSpace

/-- `str.rstrip()`. -/
def pyRStrip (l : List Char) : List Char :=
  (l.reverse.dropWhile pyIsSpace).reverse

/-- `str.strip()`. -/
def pyStrip (l : List Char) : List Char :=
  pyRStrip (pyLStrip l)

/-- `PROMPT = ">>"` — bridge.py line 35. -/
def PROMPT : String := ">>"

/-- `prompt_bytes = (PROMPT + " ").encode()` — bridge.py lines 71 and 85:
the sentinel of the Prompt-Framing Protocol. -/
def sentinel : List Char := (PROMPT ++ " ").toList

/-- The read loop of `LetsGoProcess.run` / `_read_until_prompt`
(bridge.py lines 73-77 and 87-91): starting from `buffer`, repeatedly check
`buffer.endswith(prompt_bytes)`; if not, read one byte from `stream`; a read
returning zero bytes (`stream` exhausted) breaks the loop.  Returns the final
buffer and whether the sentinel was found. -/
def readLoop (stream buffer : List Char) : List Char × Bool :=
  if sentinel.isSuffixOf buffer then (buffer, true)
  else
    match stream with
    | [] => (buffer, false)
    | c :: rest => readLoop rest (buffer ++ [c])

/-- Post-processing of the decoded buffer in `LetsGoProcess.run`
(bridge.py lines 92-97): drop a trailing `">> "` (`text[: -len(PROMPT) - 1]`),
drop a leading `">> "` (`text[len(PROMPT) + 1 :]`), then `text.strip()`. -/
def stripPrompt (text : List Char) : List Char :=
  let t1 := if sentinel.isSuffixOf text then text.take (text.length - (PROMPT.length + 1)) else text
  let t2 := if sentinel.isPrefixOf t1 then t1.drop (PROMPT.length + 1) else t1
  pyStrip t2

/-- The full framed read of `LetsGoProcess.run`: read until sentinel (or stream
close), decode, strip the prompt and surrounding whitespace. -/
def framedPayload (stream : List Char) : List Char :=
  stripPrompt (readLoop stream []).1

/-- One child-process handle (`asyncio.subprocess.Process`): the bytes written to
its stdin so far, whether its stdin pipe is still open, the bytes its stdout will
still deliver before end-of-stream, and whether the OS process is still running.
`alive = false` models a process that has already exited, for which `terminate()`
and `wait()` raise `ProcessLookupError` — exactly the behaviour of the
repository's own test double `_DummyProcess` in `tests/test_bridge.py`. -/
structure ProcHandle where
  stdinWritten : List Char
  stdinOpen : Bool
  stdoutPending : List Char
  alive : Bool
deriving DecidableEq

/-- `LetsGoProcess` (bridge.py lines 51-105): `self.proc` is `None` until
`start()` succeeds.  The `asyncio.Lock` is modelled separately as a step
relation (see the concurrency section below); the functional model treats each
`run()` as one serialized cycle. -/
structure LetsGoProcess where
  proc : Option ProcHandle
deriving DecidableEq

/-- `raise RuntimeError("process not started")` — bridge.py line 81. -/
inductive RunError where
  | notStarted
deriving DecidableEq

/-- Observable outcome of one `LetsGoProcess.run` call: the value returned (or
the exception raised), the bytes this call wrote to the child's stdin, and the
supervisor state afterwards. -/
structure RunOutcome where
  result : Except RunError (List Char)
  written : List Char
  after : LetsGoProcess

/-- `LetsGoProcess.run` (bridge.py lines 79-97).  With `self.proc` empty it
raises before writing or reading anything (line 81; the `stdin`/`stdout` stream
objects of a started process are always truthy, so the guard reduces to the
`None` check).  Otherwise, under the lock: write `cmd + "\n"`, read until the
sentinel or end-of-stream, strip the prompt, return the stripped text. -/
def LetsGoProcess.run (p : LetsGoProcess) (cmd : String) : RunOutcome :=
  match p.proc with
  | none => ⟨.error .notStarted, [], p⟩
  | some h =>
    let written := (cmd ++ "\n").toList
    let buffer := (readLoop h.stdoutPending []).1
    ⟨.ok (stripPrompt buffer),
     written,
     ⟨some { h with
              stdinWritten := h.stdinWritten ++ written,
              stdoutPending := h.stdoutPending.drop buffer.length }⟩⟩

/-- `ProcessLookupError`, as raised by `terminate()`/`wait()` on a process that
no longer exists (`tests/test_bridge.py` `_DummyProcess`). -/
inductive StopError where
  | processLookup
deriving DecidableEq

/-- Observable outcome of one `LetsGoProcess.stop` call. -/
structure StopOutcome where
  result : Except StopError Unit
  after : LetsGoProcess

/-- `LetsGoProcess.stop` (bridge.py lines 99-105).  The source has no
`try`/`except`: `self.proc.stdin.close()` (never raises), then
`self.proc.terminate()` — which raises `ProcessLookupError` when the process
has already exited (`alive = false`, as the repository's test double does) —
then `await self.proc.wait()` and `self.proc = None`.  When `terminate()`
raises, the exception propagates and `self.proc` is left set. -/
def LetsGoProcess.stop (p : LetsGoProcess) : StopOutcome :=
  match p.proc with
  | none => ⟨.ok (), p⟩
  | some h =>
    let h' := { h with stdinOpen := false }
    if h.alive then
      ⟨.ok (), ⟨none⟩⟩
    else
      ⟨.error .processLookup, ⟨some h'⟩⟩

/-- The Session Registry step of `websocket_endpoint` (bridge.py lines 150-154):
`proc = sessions.get(sid); if not proc: proc = LetsGoProcess(); await
proc.start(); sessions[sid] = proc`.  A `LetsGoProcess` object is always truthy,
so `if not proc` only fires when the key is absent.  `spawn` is the handle a
successful `start()` would install.  Returns the registry afterwards, the
supervisor handed to the caller, and whether `start()` was invoked. -/
def getOrCreate (sessions : List (String × LetsGoProcess)) (spawn : ProcHandle)
    (sid : String) : List (String × LetsGoProcess) × LetsGoProcess × Bool :=
  match sessions.lookup sid with
  | some p => (sessions, p, false)
  | none =>
    let p : LetsGoProcess := ⟨some spawn⟩
    ((sid, p) :: sessions, p, true)

/-! ## Line Terminal Loop (letsgo.py) -/

/-- A registered command handler as the loop sees it (letsgo.py line 98):
given the full input line, it yields `(reply, colored)` where `colored = none`
means the handler fully manages its own output. -/
def HandlerFn := List Char → List Char × Option (List Char)

/-- `Settings` (letsgo.py lines 51-59), with its defaults. -/
structure Settings where
  prompt : List Char := ">> ".toList
  green : List Char := "\x1b[32m".toList
  red : List Char := "\x1b[31m".toList
  cyan : List Char := "\x1b[36m".toList
  reset : List Char := "\x1b[0m".toList
  maxLogFiles : Nat := 100

/-- `color(text, code)` (letsgo.py lines 88-89); `useColor` is the module-level
`USE_COLOR`, false when the child is spawned with `--no-color` as bridge.py
does (bridge.py lines 59-62). -/
def colorize (useColor : Bool) (s : Settings) (text code : List Char) : List Char :=
  if useColor then code ++ text ++ s.reset else text

/-- Helper for `str.split()` with no arguments: split on runs of whitespace,
producing no empty tokens; `cur` is the current token reversed. -/
def pySplitAux : List Char → List Char → List (List Char)
  | [], [] => []
  | [], cur => [cur.reverse]
  | c :: rest, cur =>
    if pyIsSpace c then
      if cur.isEmpty then pySplitAux rest []
      else cur.reverse :: pySplitAux rest []
    else pySplitAux rest (c :: cur)

/-- `str.split()` with no arguments. -/
def pySplit (l : List Char) : List (List Char) :=
  pySplitAux l []

/-- What one iteration of the `while True` loop in `main` (letsgo.py lines
424-442) decides to do with an input line: break out of the loop (`exit`/`quit`),
answer with `(reply, colored)`, or raise an uncaught `IndexError` from
`user.split()[0]` on a tokenless line — which terminates the loop, since only
`EOFError` around `async_input` is caught. -/
inductive Dispatch where
  | exitLoop
  | reply (reply : List Char) (colored : Option (List Char))
  | indexError
deriving DecidableEq

/-- The dispatch of one loop iteration (letsgo.py lines 429-438):
check `user.strip().lower() in {"exit", "quit"}`, then `base = user.split()[0]`,
then look `base` up in `COMMAND_HANDLERS`, falling back to the
unknown-command reply. -/
def loopDispatch (useColor : Bool) (s : Settings)
    (handlers : List Char → Option HandlerFn) (user : List Char) : Dispatch :=
  let stripped := (pyStrip user).map Char.toLower
  if stripped = "exit".toList || stripped = "quit".toList then .exitLoop
  else
    match pySplit user with
    | [] => .indexError
    | base :: _ =>
      match handlers base with
      | some h =>
        let rc := h user
        .reply rc.1 rc.2
      | none =>
        let r := "Unknown command: ".toList ++ base ++ ". Try /help for guidance.".toList
        .reply r (some (colorize useColor s r s.red))

/-- The bytes one loop iteration writes to standard output after the handler
returns: `print(colored)` when `colored` is not `None` (letsgo.py lines
439-440), followed by the next prompt, written by `input()` inside
`async_input(color(SETTINGS.prompt, SETTINGS.cyan))` (letsgo.py line 426) with
no trailing newline.  `exit`/`quit` and the uncaught `IndexError` write
nothing. -/
def respondingOutput (useColor : Bool) (s : Settings) (d : Dispatch) : List Char :=
  match d with
  | .exitLoop => []
  | .indexError => []
  | .reply _ colored =>
    (match colored with
     | some c => c ++ ['\n']
     | none => []) ++ colorize useColor s s.prompt s.cyan

/-- Command names registered by `register_core` (letsgo.py lines 355-368). -/
def coreCommandNames : List String :=
  ["/status", "/time", "/run", "/summarize", "/clear", "/history", "/help", "/search"]

/-- The single shipped plugin, `plugins/ping.py`, registers `/ping`. -/
def pluginCommandNames : List String := ["/ping"]

/-- All command names registered at startup of letsgo.py. -/
def letsgoCommandNames : List (List Char) :=
  (coreCommandNames ++ pluginCommandNames).map String.toList

/-- The `COMMAND_HANDLERS` lookup of letsgo.py after startup.  The handler
bodies perform I/O (system metrics, subprocesses, files) and are supplied
abstractly as `impl`; any name outside the registered set resolves to `none`,
which is all the unknown-command fallback path consults. -/
def letsgoLookup (impl : List Char → HandlerFn) (base : List Char) : Option HandlerFn :=
  if base ∈ letsgoCommandNames then some (impl base) else none

/-- A handler implementation that is never reached on unknown-command inputs. -/
def trivialImpl : List Char → HandlerFn :=
  fun _ _ => ([], none)

/-- The prompt-framing round trip of spec §8: bridge.py writes one command line
to letsgo.py (spawned with `--no-color`, default settings) and performs a framed
read of the bytes the Responding phase writes. -/
def roundTrip (impl : List Char → HandlerFn) (user : String) : List Char :=
  framedPayload (respondingOutput false {} (loopDispatch false {} (letsgoLookup impl) user.toList))

/-! ## Plugin discovery (letsgo.py `_load_plugins`) -/

/-- A module in the plugins directory as `_load_plugins` (letsgo.py lines
371-378) sees it: `importlib.import_module` either succeeds — the module then
optionally exposes a `register(commands, handlers)` callback mutating the
command list and handler table — or raises. -/
inductive PluginModule (H : Type) where
  | importable (register : Option (List String × List (String × H) → List String × List (String × H)))
  | importError (msg : String)

/-- Whether importing the module succeeds. -/
def PluginModule.importOk {H : Type} : PluginModule H → Bool
  | .importable _ => true
  | .importError _ => false

/-- `_load_plugins` (letsgo.py lines 371-378): iterate the plugin modules in
order; `import_module` has no surrounding `try`/`except`, so a raising import
propagates out of `_load_plugins` (and out of `main()`'s startup, letsgo.py
line 391); an importable module's `register` is called when present. -/
def loadPlugins {H : Type} :
    List (PluginModule H) → List String × List (String × H) →
      Except String (List String × List (String × H))
  | [], st => .ok st
  | .importError msg :: _, _ => .error msg
  | .importable reg :: rest, st =>
    loadPlugins rest (match reg with | some f => f st | none => st)

/-! ## `/run` nested-subprocess timeout (letsgo.py `run_command`, `handle_run`) -/

/-- The observable behaviour of the nested shell subprocess spawned by
`run_command`: the output lines it emits (arrival time in seconds from the
start of the loop, content without the trailing newline), the time its stdout
reaches end-of-stream, and its exit code. -/
structure ChildRun where
  lines : List (Nat × List Char)
  eofAt : Nat
  rc : Nat

/-- Result of `run_command`: the returned text, whether `proc.kill()` was
issued, and the decoded lines delivered to the `on_line` callback. -/
structure RunCmdResult where
  output : List Char
  killed : Bool
  delivered : List (List Char)

/-- The read loop of `run_command` (letsgo.py lines 182-201).  `t` is the
current time (the arrival time of the last processed event); each iteration
computes `remaining = 10 - t` and kills the subprocess returning the fixed
timed-out text when `remaining <= 0`, or when `asyncio.wait_for` times out —
i.e. when the next line (or end-of-stream) arrives later than time 10.  An
empty read breaks the loop; then `rc = await proc.wait()` and the joined,
stripped output is returned, colored red when `rc != 0`. -/
def runCmdLoop (useColor : Bool) (s : Settings) (eofAt rc : Nat) :
    List (Nat × List Char) → List (List Char) → Nat → RunCmdResult
  | lines, acc, t =>
    if 10 ≤ t then
      ⟨colorize useColor s "command timed out".toList s.red, true, acc.reverse⟩
    else
      match lines with
      | [] =>
        if 10 < eofAt then
          ⟨colorize useColor s "command timed out".toList s.red, true, acc.reverse⟩
        else
          let output := pyStrip (List.intercalate ['\n'] acc.reverse)
          ⟨if rc ≠ 0 then colorize useColor s output s.red else output, false, acc.reverse⟩
      | (a, line) :: rest =>
        if 10 < a then
          ⟨colorize useColor s "command timed out".toList s.red, true, acc.reverse⟩
        else
          runCmdLoop useColor s eofAt rc rest (pyRStrip line :: acc) a
termination_by lines _ _ => lines.length
decreasing_by simp

/-- `run_command(command, on_line)` (letsgo.py lines 163-207) for a subprocess
that spawns successfully and behaves as `b`.  The function catches every
exception internally and always returns text. -/
def runCommandModel (useColor : Bool) (s : Settings) (b : ChildRun) : RunCmdResult :=
  runCmdLoop useColor s b.eofAt b.rc b.lines [] 0

/-- `handle_run` (letsgo.py lines 299-311): the `_cb` callback receives
`"...running"` then each decoded line; `combined` joins and strips them;
`colored` is the reply when it differs from `combined`, else `None`; the final
reply is the raw reply when `colored` is truthy (a non-`None`, non-empty
string), else `combined`. -/
def handleRun (useColor : Bool) (s : Settings) (b : ChildRun) :
    List Char × Option (List Char) :=
  let res := runCommandModel useColor s b
  let cbLines := "...running".toList :: res.delivered
  let combined := pyStrip (List.intercalate ['\n'] cbLines)
  let reply := res.output
  let colored : Option (List Char) := if reply = combined then none else some reply
  let truthy : Bool := match colored with | some c => !c.isEmpty | none => false
  (if truthy then reply else combined, colored)

/-! ## Serialization of `run()` by the supervisor lock (bridge.py lines 56, 82)

`run()`'s body under `async with self._lock` is the write of the command bytes
followed by the sentinel-scanning reads.  Each concurrent `run()` call is a
task executing, in order: acquire the lock (possible only when no task holds
it — `asyncio.Lock` semantics), write command bytes, read response bytes,
release the lock.  The trace records I/O and lock events, newest first. -/

/-- Program counter of one `run()` call: before the lock, writing the command
(bridge.py lines 83-84), reading the framed response (lines 85-91), done
(lock released on exit from the `async with` block). -/
inductive Phase where
  | idle
  | writing
  | reading
  | done
deriving DecidableEq

/-- Events observable on the shared child process and its lock. -/
inductive LockEvent (n : Nat) where
  | acquire (t : Fin n)
  | write (t : Fin n)
  | read (t : Fin n)
  | release (t : Fin n)
deriving DecidableEq

/-- Global state of `n` concurrent `run()` calls against one supervisor. -/
structure BridgeState (n : Nat) where
  pc : Fin n → Phase
  lock : Option (Fin n)
  trace : List (LockEvent n)

/-- One cooperative scheduling step.  The lock is acquired only when free
(`asyncio.Lock.acquire`; waiters queue), writes happen in the `writing` phase,
reads in the `reading` phase, and the task holding the lock releases it when
its framed read is over. -/
inductive BridgeStep {n : Nat} : BridgeState n → BridgeState n → Prop
  | acquire (s : BridgeState n) (t : Fin n) (hpc : s.pc t = .idle) (hl : s.lock = none) :
      BridgeStep s ⟨Function.update s.pc t .writing, some t, .acquire t :: s.trace⟩
  | write (s : BridgeState n) (t : Fin n) (hpc : s.pc t = .writing) :
      BridgeStep s ⟨s.pc, s.lock, .write t :: s.trace⟩
  | beginRead (s : BridgeState n) (t : Fin n) (hpc : s.pc t = .writing) :
      BridgeStep s ⟨Function.update s.pc t .reading, s.lock, s.trace⟩
  | read (s : BridgeState n) (t : Fin n) (hpc : s.pc t = .reading) :
      BridgeStep s ⟨s.pc, s.lock, .read t :: s.trace⟩
  | release (s : BridgeState n) (t : Fin n) (hpc : s.pc t = .reading) :
      BridgeStep s ⟨Function.update s.pc t .done, none, .release t :: s.trace⟩

/-- Initial state: no call has started, the lock is free, nothing happened. -/
def initBridge (n : Nat) : BridgeState n :=
  ⟨fun _ => .idle, none, []⟩

/-- States reachable by any interleaving of the `n` calls. -/
def ReachableBridge {n : Nat} (s : BridgeState n) : Prop :=
  Relation.ReflTransGen BridgeStep (initBridge n) s

/-- Task `t` is inside its write-then-read critical section. -/
def inCritical {n : Nat} (s : BridgeState n) (t : Fin n) : Prop :=
  s.pc t = .writing ∨ s.pc t = .reading

/-- A trace (newest first) made of complete lock-delimited sections: each
section is `release t`, then I/O events all belonging to `t`, then
`acquire t`. -/
inductive ClosedTrace {n : Nat} : List (LockEvent n) → Prop
  | nil : ClosedTrace []
  | seg (t : Fin n) (mid rest : List (LockEvent n))
      (hmid : ∀ e ∈ mid, e = .write t ∨ e = .read t)
      (hrest : ClosedTrace rest) :
      ClosedTrace (.release t :: (mid ++ .acquire t :: rest))

/-- A trace is serialized when it is a sequence of complete per-task sections,
possibly with one section still open at the front: no I/O event of one call
ever sits inside another call's section. -/
def SerializedTrace {n : Nat} (tr : List (LockEvent n)) : Prop :=
  ClosedTrace tr ∨
    ∃ t mid rest, tr = mid ++ LockEvent.acquire t :: rest ∧
      (∀ e ∈ mid, e = LockEvent.write t ∨ e = LockEvent.read t) ∧ ClosedTrace rest

/-- Inductive invariant: critical tasks hold the lock, and the trace decomposes
into complete sections plus, when the lock is held, one open section of the
holder's events. -/
def BridgeInv {n : Nat} (s : BridgeState n) : Prop :=
  (∀ t, inCritical s t → s.lock = some t) ∧
  (∀ t, s.lock = some t →
    ∃ mid rest, s.trace = mid ++ LockEvent.acquire t :: rest ∧
      (∀ e ∈ mid, e = LockEvent.write t ∨ e = LockEvent.read t) ∧ ClosedTrace rest) ∧
  (s.lock = none → ClosedTrace s.trace)

/-! ## Helper lemmas about the framed read -/

lemma readLoop_of_suffix (stream acc : List Char)
    (h : sentinel.isSuffixOf acc = true) : readLoop stream acc = (acc, true) := by
  unfold readLoop
  simp [h]

lemma readLoop_finds_aux (full rest : List Char)
    (hend : sentinel.isSuffixOf full = true)
    (hfirst : ∀ k, k < full.length → sentinel.isSuffixOf (full.take k) = false) :
    ∀ todo acc, full = acc ++ todo → readLoop (todo ++ rest) acc = (full, true) := by
  intro todo
  induction todo with
  | nil =>
    intro acc hacc
    rw [List.append_nil] at hacc
    subst hacc
    simp only [List.nil_append]
    exact readLoop_of_suffix rest full hend
  | cons c todo ih =>
    intro acc hacc
    subst hacc
    have hlen : acc.length < (acc ++ c :: todo).length := by simp
    have htake : (acc ++ c :: todo).take acc.length = acc := List.take_left _ _
    have hnot : sentinel.isSuffixOf acc = false := by
      have hk := hfirst acc.length hlen
      rwa [htake] at hk
    show readLoop ((c :: todo) ++ rest) acc = _
    unfold readLoop
    simp only [hnot, Bool.false_eq_true, if_false, List.cons_append]
    exact ih (acc ++ [c]) (by simp)

lemma readLoop_finds (full rest : List Char)
    (hend : sentinel.isSuffixOf full = true)
    (hfirst : ∀ k, k < full.length → sentinel.isSuffixOf (full.take k) = false) :
    readLoop (full ++ rest) [] = (full, true) :=
  readLoop_finds_aux full rest hend hfirst full [] (by simp)

lemma readLoop_exhausts_aux (stream : List Char)
    (hns : ∀ k, k ≤ stream.length → sentinel.isSuffixOf (stream.take k) = false) :
    ∀ todo acc, stream = acc ++ todo → readLoop todo acc = (stream, false) := by
  intro todo
  induction todo with
  | nil =>
    intro acc hacc
    rw [List.append_nil] at hacc
    subst hacc
    have hfull : sentinel.isSuffixOf stream = false := by
      have hk := hns stream.length le_rfl
      rwa [List.take_length] at hk
    unfold readLoop
    simp [hfull]
  | cons c todo ih =>
    intro acc hacc
    subst hacc
    have hlen : acc.length ≤ (acc ++ c :: todo).length := by simp
    have htake : (acc ++ c :: todo).take acc.length = acc := List.take_left _ _
    have hnot : sentinel.isSuffixOf acc = false := by
      have hk := hns acc.length hlen
      rwa [htake] at hk
    unfold readLoop
    simp only [hnot, Bool.false_eq_true, if_false]
    exact ih (acc ++ [c]) (by simp)

lemma readLoop_exhausts (stream : List Char)
    (hns : ∀ k, k ≤ stream.length → sentinel.isSuffixOf (stream.take k) = false) :
    readLoop stream [] = (stream, false) :=
  readLoop_exhausts_aux stream hns stream [] (by simp)

lemma sentinel_suffix_self : sentinel.isSuffixOf sentinel = true := by decide

lemma stripPrompt_of_framed (payload : List Char)
    (hfirst : ∀ k, k < payload.length + sentinel.length →
      sentinel.isSuffixOf ((payload ++ sentinel).take k) = false) :
    stripPrompt (payload ++ sentinel) = pyStrip payload := by
  have hend : sentinel.isSuffixOf (payload ++ sentinel) = true := by
    simp [List.suffix_append]
  have hlen : (payload ++ sentinel).length - (PROMPT.length + 1) = payload.length := by
    have h3 : sentinel.length = 3 := by decide
    have h2 : PROMPT.length = 2 := by decide
    simp [List.length_append, h3, h2]
  have htake : (payload ++ sentinel).take payload.length = payload := List.take_left _ _
  have hpre : sentinel.isPrefixOf payload = false := by
    cases hcase : sentinel.isPrefixOf payload with
    | false => rfl
    | true =>
      exfalso
      have hp : sentinel <+: payload := by
        have := hcase
        simpa using this
      obtain ⟨u, hu⟩ := hp
      have h3 : sentinel.length = 3 := by decide
      have hplen : 3 ≤ payload.length := by
        rw [← hu, List.length_append]
        omega
      have hk := hfirst sentinel.length (by omega)
      have htk : (payload ++ sentinel).take sentinel.length = sentinel := by
        rw [List.take_append_of_le_length (by omega)]
        rw [← hu, List.take_left]
      rw [htk, sentinel_suffix_self] at hk
      simp at hk
  have hlen2 : payload.length + sentinel.length - (PROMPT.length + 1) = payload.length := by
    have h3 : sentinel.length = 3 := by decide
    have h2 : PROMPT.length = 2 := by decide
    omega
  have hpre2 : ¬ sentinel <+: payload := by
    intro hc
    have ht : sentinel.isPrefixOf payload = true := by simpa using hc
    rw [ht] at hpre
    simp at hpre
  unfold stripPrompt
  simp [hend, hlen, hlen2, htake, hpre2]

lemma stripPrompt_of_no_sentinel (l : List Char)
    (hns : ∀ k, k ≤ l.length → sentinel.isSuffixOf (l.take k) = false) :
    stripPrompt l = pyStrip l := by
  have hfull : sentinel.isSuffixOf l = false := by
    have hk := hns l.length le_rfl
    rwa [List.take_length] at hk
  have hpre : sentinel.isPrefixOf l = false := by
    cases hcase : sentinel.isPrefixOf l with
    | false => rfl
    | true =>
      exfalso
      have hp : sentinel <+: l := by simpa using hcase
      obtain ⟨u, hu⟩ := hp
      have h3 : sentinel.length = 3 := by decide
      have hplen : 3 ≤ l.length := by
        rw [← hu, List.length_append]
        omega
      have hk := hns sentinel.length (by omega)
      have htk : l.take sentinel.length = sentinel := by
        rw [← hu, List.take_left]
      rw [htk, sentinel_suffix_self] at hk
      simp at hk
  unfold stripPrompt
  simp [hfull, hpre]

/-- `pyStrip l` is a contiguous slice of `l`. -/
lemma pyStrip_infix_self (l : List Char) : pyStrip l <:+: l := by
  have h1 : pyLStrip l <:+ l := List.dropWhile_suffix pyIsSpace
  have h2 : pyRStrip (pyLStrip l) <+: pyLStrip l := by
    unfold pyRStrip
    have := List.dropWhile_suffix (l := (pyLStrip l).reverse) pyIsSpace
    rw [← List.reverse_prefix] at this
    simpa using this
  exact (h2.isInfix).trans h1.isInfix

/-! ## Claim theorems -/

/-- C6: `run(command)` invoked on a Supervisor before any successful `start()`
(process handle empty) does not write to any child or perform a read: it fails
by raising the not-started error surfaced to the caller (bridge.py lines 80-81:
the `RuntimeError("process not started")` is raised before the lock is taken and
before any stdin write or stdout read; the outcome records no written bytes and
an unchanged supervisor). -/
theorem run_notStarted (p : LetsGoProcess) (cmd : String) (hp : p.proc = none) :
    p.run cmd = ⟨.error .notStarted, [], p⟩ := by
  unfold LetsGoProcess.run
  rw [hp]

/-- Witness for C6 at the concrete never-started supervisor and command
`echo hello`. -/
theorem run_notStarted_witness :
    LetsGoProcess.run ⟨none⟩ "echo hello" = ⟨.error .notStarted, [], ⟨none⟩⟩ :=
  run_notStarted ⟨none⟩ "echo hello" rfl

/-- C2: the claim says `stop()` never throws for an already-dead process and
clears the handle.  The code (bridge.py lines 99-105) has no `try`/`except`:
evaluated on a supervisor whose recorded process has already exited — the exact
situation of `tests/test_bridge.py::test_stop_handles_missing_process`, whose
`_DummyProcess.terminate` raises `ProcessLookupError` — `stop()` propagates
`ProcessLookupError` and leaves the handle set, contradicting both the claim
and the repository's own test. -/
theorem stop_raises_on_dead_process :
    (LetsGoProcess.stop ⟨some ⟨[], true, [], false⟩⟩).result = .error .processLookup ∧
    (LetsGoProcess.stop ⟨some ⟨[], true, [], false⟩⟩).after.proc ≠ none := by
  exact ⟨rfl, by decide⟩

/-- C3: the claim says `getOrCreate` returns an existing Supervisor only if its
process handle is alive, restarting it otherwise.  The code (bridge.py lines
150-154) checks only key presence: evaluated on a registry holding a Supervisor
whose process handle is dead (`alive = false`), it hands that same dead
Supervisor back without invoking `start()` — contradicting the claim and the
intent shown by `tests/test_bridge.py::test_get_user_proc_restarts_stopped_process`
(which imports a restart-on-dead `_get_user_proc` that no longer exists in
bridge.py). -/
theorem getOrCreate_returns_dead_supervisor :
    (getOrCreate [("s", ⟨some ⟨[], true, [], false⟩⟩)] ⟨[], true, [], true⟩ "s").2.1 =
      ⟨some ⟨[], true, [], false⟩⟩ ∧
    (getOrCreate [("s", ⟨some ⟨[], true, [], false⟩⟩)] ⟨[], true, [], true⟩ "s").2.2 = false ∧
    (getOrCreate [("s", ⟨some ⟨[], true, [], false⟩⟩)] ⟨[], true, [], true⟩ "s").1 =
      [("s", ⟨some ⟨[], true, [], false⟩⟩)] := by
  exact ⟨rfl, rfl, rfl⟩

/-- C4 counterexample: a plugin whose import raises aborts plugin discovery —
`loadPlugins` propagates the exception instead of completing with the failure
logged; the later plugin's `register` is never reached. -/
theorem loadPlugins_aborts_on_import_error :
    loadPlugins (H := Unit)
      [.importError "boom", .importable (some fun st => (st.1 ++ ["/ping"], st.2))]
      ([], []) = .error "boom" :=
  rfl

/-- C4 amended: a plugin failing to import aborts the terminal's startup: the
failing import's exception propagates out of `_load_plugins` (letsgo.py 375-376
have no `try`/`except`), discovery does not complete, nothing is logged, and
the commands of every later plugin are also absent.  Plugins before the failing
one are processed normally. -/
theorem loadPlugins_error_propagates {H : Type} (pre post : List (PluginModule H))
    (msg : String) (st : List String × List (String × H))
    (hpre : ∀ m ∈ pre, m.importOk = true) :
    loadPlugins (pre ++ .importError msg :: post) st = .error msg := by
  induction pre generalizing st with
  | nil => rfl
  | cons m pre ih =>
    cases m with
    | importable reg =>
      show loadPlugins (.importable reg :: (pre ++ .importError msg :: post)) st = .error msg
      unfold loadPlugins
      exact ih _ (fun m hm => hpre m (List.mem_cons_of_mem _ hm))
    | importError msg2 =>
      exact absurd (hpre _ (List.mem_cons_self _ _)) (by simp [PluginModule.importOk])

/-- Witness for C4's amended theorem: one healthy register-less plugin before
the failing import. -/
theorem loadPlugins_error_propagates_witness :
    loadPlugins (H := Unit) ([.importable none] ++ .importError "boom" :: []) ([], []) =
      .error "boom" :=
  loadPlugins_error_propagates [.importable none] [] "boom" ([], [])
    (by
      intro m hm
      rw [List.mem_singleton] at hm
      subst hm
      rfl)

/-- C5 counterexample: a framed read whose stream closes (zero-byte read)
before any sentinel: the partial payload `"partial"` is returned to the caller
(stripped), not discarded, and the process handle is left set, not cleared. -/
theorem run_streamClosed_cex :
    (LetsGoProcess.run ⟨some ⟨[], true, "partial".toList, true⟩⟩ "x").result =
      .ok "partial".toList ∧
    "partial".toList ≠ [] ∧
    (LetsGoProcess.run ⟨some ⟨[], true, "partial".toList, true⟩⟩ "x").after.proc ≠ none := by
  exact ⟨rfl, by decide, by decide⟩

/-- C5 amended: if, during a framed read in `run()`, the read returns zero
bytes before the sentinel has been seen, the partial payload accumulated so far
is returned to the caller with surrounding whitespace trimmed (not discarded),
and the Supervisor leaves its process handle set (it does not transition to the
dead/empty state); only the pending stream is consumed. -/
theorem run_streamClosed_returns_partial (p : LetsGoProcess) (h : ProcHandle)
    (cmd : String) (hp : p.proc = some h)
    (hns : ∀ k, k ≤ h.stdoutPending.length →
      sentinel.isSuffixOf (h.stdoutPending.take k) = false) :
    (p.run cmd).result = .ok (pyStrip h.stdoutPending) ∧
    (p.run cmd).after.proc = some { h with
      stdinWritten := h.stdinWritten ++ (cmd ++ "\n").toList,
      stdoutPending := [] } := by
  have hrl : readLoop h.stdoutPending [] = (h.stdoutPending, false) :=
    readLoop_exhausts h.stdoutPending hns
  have hsp : stripPrompt h.stdoutPending = pyStrip h.stdoutPending :=
    stripPrompt_of_no_sentinel h.stdoutPending hns
  unfold LetsGoProcess.run
  rw [hp]
  simp [hrl, hsp]

/-- Witness for C5's amended theorem: stream `"hi"` with no sentinel: `run`
returns `"hi"` and the handle stays set. -/
theorem run_streamClosed_returns_partial_witness :
    (LetsGoProcess.run ⟨some ⟨[], true, "hi".toList, true⟩⟩ "x").result =
      .ok (pyStrip "hi".toList) ∧
    (LetsGoProcess.run ⟨some ⟨[], true, "hi".toList, true⟩⟩ "x").after.proc =
      some ⟨[] ++ ("x" ++ "\n").toList, true, [], true⟩ :=
  run_streamClosed_returns_partial ⟨some ⟨[], true, "hi".toList, true⟩⟩
    ⟨[], true, "hi".toList, true⟩ "x" rfl (by decide)

/-- C1 counterexample: the claim's example is false on the code.  Writing the
command `echo hello` into the Line Terminal Loop (letsgo.py registers no `echo`
handler, so the unknown-command fallback fires) and reading via the framing
protocol yields the unknown-command payload, not `"hello"`. -/
theorem roundTrip_echo_hello :
    roundTrip trivialImpl "echo hello" ≠ "hello".toList ∧
    roundTrip trivialImpl "echo hello" =
      "Unknown command: echo. Try /help for guidance.".toList := by
  exact ⟨by decide, by decide⟩

/-- C1 amended: for every started Supervisor and every command string, `run`
writes the command followed by a newline to the child's stdin, accumulates
child stdout bytes until the trailing slice of the buffer equals the sentinel
bytes, and returns the payload preceding that first sentinel occurrence with
surrounding whitespace trimmed; the sentinel never appears in the returned
payload.  (The claim's `echo hello` example is corrected by
`roundTrip_echo_hello`: the Line Terminal Loop answers with the
unknown-command reply, which is what the framed read then yields.) -/
theorem run_frames_payload (p : LetsGoProcess) (h : ProcHandle) (cmd : String)
    (payload rest : List Char)
    (hp : p.proc = some h)
    (hs : h.stdoutPending = payload ++ sentinel ++ rest)
    (hfirst : ∀ k, k < payload.length + sentinel.length →
      sentinel.isSuffixOf ((payload ++ sentinel).take k) = false) :
    (p.run cmd).written = (cmd ++ "\n").toList ∧
    (p.run cmd).result = .ok (pyStrip payload) ∧
    ¬ sentinel <:+: pyStrip payload ∧
    (p.run cmd).after.proc = some { h with
      stdinWritten := h.stdinWritten ++ (cmd ++ "\n").toList,
      stdoutPending := rest } := by
  have hend : sentinel.isSuffixOf (payload ++ sentinel) = true := by
    simp [List.suffix_append]
  have hfl : (payload ++ sentinel).length = payload.length + sentinel.length :=
    List.length_append _ _
  have hrl : readLoop h.stdoutPending [] = (payload ++ sentinel, true) := by
    rw [hs]
    exact readLoop_finds (payload ++ sentinel) rest hend
      (fun k hk => hfirst k (by rwa [hfl] at hk))
  have hdrop : h.stdoutPending.drop (payload ++ sentinel).length = rest := by
    rw [hs]
    exact List.drop_left _ _
  have hdrop2 : h.stdoutPending.drop (payload.length + sentinel.length) = rest := by
    rw [← hfl]
    exact hdrop
  have hnotinf : ¬ sentinel <:+: pyStrip payload := by
    intro hinf
    have hinf2 : sentinel <:+: payload := hinf.trans (pyStrip_infix_self payload)
    obtain ⟨u, v, huv⟩ := hinf2
    have h3 : sentinel.length = 3 := by decide
    have hplen : u.length + sentinel.length + v.length = payload.length := by
      rw [← huv]
      simp only [List.length_append]
    have hk := hfirst (u.length + sentinel.length) (by omega)
    have htk : (payload ++ sentinel).take (u.length + sentinel.length) =
        u ++ sentinel := by
      rw [List.take_append_of_le_length (by omega), ← huv]
      have hl : (u ++ sentinel).length = u.length + sentinel.length :=
        List.length_append _ _
      rw [← hl, List.take_left]
    have hsend : sentinel.isSuffixOf (u ++ sentinel) = true := by
      simp [List.suffix_append]
    rw [htk, hsend] at hk
    simp at hk
  have hstrip : stripPrompt (payload ++ sentinel) = pyStrip payload :=
    stripPrompt_of_framed payload hfirst
  refine ⟨?_, ?_, hnotinf, ?_⟩ <;>
    simp [LetsGoProcess.run, hp, hrl, hstrip, hdrop, hdrop2]

/-- Witness for C1's amended theorem at the concrete child-output stream
`"hello\n>> "` (a handler that printed `hello`): the framed read returns
`"hello"` and the sentinel is absent from it. -/
theorem run_frames_payload_witness :
    (LetsGoProcess.run ⟨some ⟨[], true, "hello\n>> ".toList, true⟩⟩ "x").written =
      ("x" ++ "\n").toList ∧
    (LetsGoProcess.run ⟨some ⟨[], true, "hello\n>> ".toList, true⟩⟩ "x").result =
      .ok (pyStrip "hello\n".toList) ∧
    ¬ sentinel <:+: pyStrip "hello\n".toList ∧
    (LetsGoProcess.run ⟨some ⟨[], true, "hello\n>> ".toList, true⟩⟩ "x").after.proc =
      some ⟨[] ++ ("x" ++ "\n").toList, true, [], true⟩ :=
  run_frames_payload ⟨some ⟨[], true, "hello\n>> ".toList, true⟩⟩
    ⟨[], true, "hello\n>> ".toList, true⟩ "x" "hello\n".toList [] rfl
    (by decide) (by decide)

lemma getLast_append_of_ne_nil (l₁ l₂ : List Char) (h : l₂ ≠ []) :
    (l₁ ++ l₂).getLast? = l₂.getLast? := by
  rw [List.getLast?_append]
  cases l₂ with
  | nil => exact absurd rfl h
  | cons a l => simp [List.getLast?_cons]

/-- C7 counterexample: with the default settings and color disabled (how
bridge.py runs the child), the Responding phase for the unknown-command line
`foo` ends with the sentinel `">> "` itself — the prompt's final character is a
space — and not with a newline-terminated sentinel line `">> \n"` as the claim
states. -/
theorem responding_sentinel_not_newline_terminated :
    sentinel.isSuffixOf
      (respondingOutput false {} (loopDispatch false {} (fun _ => none) "foo".toList)) =
      true ∧
    ¬ (">> \n".toList <:+
      respondingOutput false {} (loopDispatch false {} (fun _ => none) "foo".toList)) ∧
    (respondingOutput false {} (loopDispatch false {} (fun _ => none) "foo".toList)).getLast? =
      some ' ' := by
  exact ⟨by decide, by decide, by decide⟩

/-- C7 amended: after every handler completes in the Line Terminal Loop, the
rendered output (when not null) is written to standard output with a trailing
newline, followed immediately by the sentinel: exactly the configured prompt
string, written with NO trailing newline (the `input()` call emits the prompt
as-is) and with nothing after it; the write's final character is the prompt's
final character. -/
theorem responding_emits_prompt (s : Settings) (r : List Char)
    (c : Option (List Char)) (hne : s.prompt ≠ []) :
    respondingOutput false s (.reply r c) =
      (match c with
       | some cc => cc ++ ['\n']
       | none => []) ++ s.prompt ∧
    (respondingOutput false s (.reply r c)).getLast? = s.prompt.getLast? := by
  constructor
  · cases c <;> simp [respondingOutput, colorize]
  · cases c with
    | none => simp [respondingOutput, colorize]
    | some cc =>
      show ((cc ++ ['\n']) ++ colorize false s s.prompt s.cyan).getLast? = _
      rw [show colorize false s s.prompt s.cyan = s.prompt from rfl]
      exact getLast_append_of_ne_nil _ _ hne

/-- Witness for C7's amended theorem at the default settings with rendered
output `"hi"`. -/
theorem responding_emits_prompt_witness :
    respondingOutput false {} (.reply "hi".toList (some "hi".toList)) =
      ("hi".toList ++ ['\n']) ++ ({} : Settings).prompt ∧
    (respondingOutput false {} (.reply "hi".toList (some "hi".toList))).getLast? =
      ({} : Settings).prompt.getLast? :=
  responding_emits_prompt {} "hi".toList (some "hi".toList) (by decide)

lemma pySplitAux_ws (l : List Char) (h : ∀ c ∈ l, pyIsSpace c = true) :
    pySplitAux l [] = [] := by
  induction l with
  | nil => rfl
  | cons c rest ih =>
    have hc := h c (List.mem_cons_self c rest)
    unfold pySplitAux
    simp only [hc, if_true, List.isEmpty_nil]
    exact ih (fun x hx => h x (List.mem_cons_of_mem c hx))

lemma pyStrip_ws (l : List Char) (h : ∀ c ∈ l, pyIsSpace c = true) :
    pyStrip l = [] := by
  unfold pyStrip pyLStrip
  rw [List.dropWhile_eq_nil_iff.mpr h]
  rfl

/-- C10: for every input line consisting only of whitespace (including the
empty line) — which then cannot be the `exit`/`quit` sequence, since it strips
to the empty string — the dispatch of the Line Terminal Loop hits
`user.split()[0]` on an empty token list and raises an uncaught `IndexError`
(letsgo.py line 432), terminating the loop (only `EOFError` is caught, line
427), instead of producing an unknown-command response followed by the
sentinel. -/
theorem whitespace_line_raises_indexError (useColor : Bool) (s : Settings)
    (handlers : List Char → Option HandlerFn) (user : List Char)
    (hws : ∀ c ∈ user, pyIsSpace c = true) :
    loopDispatch useColor s handlers user = .indexError := by
  have h1 : pyStrip user = [] := pyStrip_ws user hws
  have h2 : pySplit user = [] := pySplitAux_ws user hws
  unfold loopDispatch
  simp [h1, h2]

/-- Witness for C10 at the concrete three-space line (and by the same theorem
the empty line). -/
theorem whitespace_line_raises_indexError_witness :
    loopDispatch false {} (fun _ => none) "   ".toList = .indexError :=
  whitespace_line_raises_indexError false {} (fun _ => none) "   ".toList (by decide)

lemma pyStrip_head_of_not_space (c : Char) (l : List Char) (hc : pyIsSpace c = false) :
    (pyStrip (c :: l)).head? = some c := by
  unfold pyStrip pyLStrip pyRStrip
  simp only [List.dropWhile_cons, hc, Bool.false_eq_true, if_false]
  rw [List.reverse_cons, List.dropWhile_append]
  by_cases hemp : (l.reverse.dropWhile pyIsSpace).isEmpty
  · rw [if_pos hemp]
    simp [List.dropWhile_cons, hc]
  · rw [if_neg hemp]
    simp

lemma intercalate_cons_head (sep a : List Char) (d : List (List Char)) :
    ∃ t, List.intercalate sep (a :: d) = a ++ t := by
  cases d with
  | nil => exact ⟨[], by simp [List.intercalate]⟩
  | cons b rest =>
    refine ⟨sep ++ List.intercalate sep (b :: rest), ?_⟩
    simp [List.intercalate, List.intersperse]

lemma runCmdLoop_timeout (useColor : Bool) (s : Settings) (eofAt rc : Nat)
    (h : 10 < eofAt) :
    ∀ lines acc t, ∃ d, runCmdLoop useColor s eofAt rc lines acc t =
      ⟨colorize useColor s "command timed out".toList s.red, true, d⟩ := by
  intro lines
  induction lines with
  | nil =>
    intro acc t
    unfold runCmdLoop
    by_cases h10 : 10 ≤ t
    · exact ⟨acc.reverse, by rw [if_pos h10]⟩
    · refine ⟨acc.reverse, ?_⟩
      rw [if_neg h10]
      simp [h]
  | cons p rest ih =>
    intro acc t
    obtain ⟨a, line⟩ := p
    unfold runCmdLoop
    by_cases h10 : 10 ≤ t
    · exact ⟨acc.reverse, by rw [if_pos h10]⟩
    · by_cases ha : 10 < a
      · refine ⟨acc.reverse, ?_⟩
        rw [if_neg h10]
        simp [ha]
      · obtain ⟨d, hd⟩ := ih (pyRStrip line :: acc) a
        refine ⟨d, ?_⟩
        rw [if_neg h10]
        simp [ha, hd]

lemma handleRun_timeout (useColor : Bool) (b : ChildRun) (htime : 10 < b.eofAt) :
    handleRun useColor {} b =
      (colorize useColor {} "command timed out".toList ({} : Settings).red,
       some (colorize useColor {} "command timed out".toList ({} : Settings).red)) := by
  obtain ⟨d0, hd0⟩ := runCmdLoop_timeout useColor {} b.eofAt b.rc htime b.lines [] 0
  have hm0 : runCommandModel useColor {} b =
      ⟨colorize useColor {} "command timed out".toList ({} : Settings).red, true, d0⟩ := hd0
  have hne : colorize useColor ({} : Settings) "command timed out".toList ({} : Settings).red ≠
      pyStrip (List.intercalate ['\n'] ("...running".toList :: d0)) := by
    intro he
    obtain ⟨t, ht⟩ := intercalate_cons_head ['\n'] "...running".toList d0
    have hhead : (pyStrip (List.intercalate ['\n'] ("...running".toList :: d0))).head? =
        some '.' := by
      rw [ht]
      show (pyStrip ('.' :: ("..running".toList ++ t))).head? = some '.'
      exact pyStrip_head_of_not_space '.' _ (by decide)
    have hrh : (colorize useColor ({} : Settings) "command timed out".toList
        ({} : Settings).red).head? ≠ some '.' := by
      cases useColor <;> decide
    rw [he] at hrh
    exact hrh hhead
  have hemp : (colorize useColor ({} : Settings) "command timed out".toList
      ({} : Settings).red).isEmpty = false := by
    cases useColor <;> decide
  unfold handleRun
  rw [hm0]
  simp only [if_neg hne, hemp, Bool.not_false, if_true]

/-- C8: when the `/run` builtin's nested subprocess exceeds the 10-second
upper bound (its stream is still open past time 10), `run_command` forcibly
kills it (`proc.kill()`, letsgo.py lines 186, 192) and returns the fixed
timed-out text as an ordinary return value — the model is a total function
returning text, mirroring the source's catch-all `except` — so `handle_run`
yields it as the response text of a normal `(reply, colored)` pair (at default
settings) and the Line Terminal Loop proceeds to its Responding phase rather
than hanging or raising a protocol-level error. -/
theorem run_command_timeout (useColor : Bool) (s : Settings) (b : ChildRun)
    (htime : 10 < b.eofAt) :
    (runCommandModel useColor s b).killed = true ∧
    (runCommandModel useColor s b).output =
      colorize useColor s "command timed out".toList s.red ∧
    handleRun useColor {} b =
      (colorize useColor {} "command timed out".toList ({} : Settings).red,
       some (colorize useColor {} "command timed out".toList ({} : Settings).red)) := by
  obtain ⟨d, hd⟩ := runCmdLoop_timeout useColor s b.eofAt b.rc htime b.lines [] 0
  have hm : runCommandModel useColor s b =
      ⟨colorize useColor s "command timed out".toList s.red, true, d⟩ := hd
  exact ⟨by rw [hm], by rw [hm], handleRun_timeout useColor b htime⟩

/-- Witness for C8 at a nested subprocess that stays silent until its stream
closes at second 11, without color. -/
theorem run_command_timeout_witness :
    (runCommandModel false {} ⟨[], 11, 0⟩).killed = true ∧
    (runCommandModel false {} ⟨[], 11, 0⟩).output =
      colorize false {} "command timed out".toList ({} : Settings).red ∧
    handleRun false {} ⟨[], 11, 0⟩ =
      (colorize false {} "command timed out".toList ({} : Settings).red,
       some (colorize false {} "command timed out".toList ({} : Settings).red)) :=
  run_command_timeout false {} ⟨[], 11, 0⟩ (by decide)

lemma bridgeInv_init (n : Nat) : BridgeInv (initBridge n) := by
  refine ⟨?_, ?_, ?_⟩
  · intro t ht
    rcases ht with h | h <;> simp [initBridge] at h
  · intro t ht
    simp [initBridge] at ht
  · intro _
    exact ClosedTrace.nil

lemma bridgeInv_step {n : Nat} {s s' : BridgeState n}
    (hinv : BridgeInv s) (hstep : BridgeStep s s') : BridgeInv s' := by
  obtain ⟨h1, h2, h3⟩ := hinv
  cases hstep with
  | acquire t hpc hl =>
    refine ⟨?_, ?_, ?_⟩
    · intro u hu
      simp only [inCritical] at hu
      by_cases htu : u = t
      · subst htu
        rfl
      · rw [Function.update_noteq htu] at hu
        have hcu := h1 u hu
        rw [hl] at hcu
        exact absurd hcu (by simp)
    · intro u hu
      have htu : t = u := Option.some.inj hu
      subst htu
      exact ⟨[], s.trace, rfl, by intro e he; simp at he, h3 hl⟩
    · intro hcontra
      simp at hcontra
  | write t hpc =>
    have hlock : s.lock = some t := h1 t (Or.inl hpc)
    refine ⟨?_, ?_, ?_⟩
    · intro u hu
      exact h1 u hu
    · intro u hu
      have htu : t = u := by
        rw [hlock] at hu
        exact Option.some.inj hu
      subst htu
      obtain ⟨mid, rest, htr, hmid, hclosed⟩ := h2 t hlock
      refine ⟨.write t :: mid, rest, by rw [htr]; rfl, ?_, hclosed⟩
      intro e he
      rcases List.mem_cons.mp he with he | he
      · exact Or.inl he
      · exact hmid e he
    · intro hcontra
      rw [hlock] at hcontra
      simp at hcontra
  | beginRead t hpc =>
    refine ⟨?_, ?_, ?_⟩
    · intro u hu
      simp only [inCritical] at hu
      by_cases htu : u = t
      · subst htu
        exact h1 u (Or.inl hpc)
      · rw [Function.update_noteq htu] at hu
        exact h1 u hu
    · intro u hu
      exact h2 u hu
    · intro hnone
      exact h3 hnone
  | read t hpc =>
    have hlock : s.lock = some t := h1 t (Or.inr hpc)
    refine ⟨?_, ?_, ?_⟩
    · intro u hu
      exact h1 u hu
    · intro u hu
      have htu : t = u := by
        rw [hlock] at hu
        exact Option.some.inj hu
      subst htu
      obtain ⟨mid, rest, htr, hmid, hclosed⟩ := h2 t hlock
      refine ⟨.read t :: mid, rest, by rw [htr]; rfl, ?_, hclosed⟩
      intro e he
      rcases List.mem_cons.mp he with he | he
      · exact Or.inr he
      · exact hmid e he
    · intro hcontra
      rw [hlock] at hcontra
      simp at hcontra
  | release t hpc =>
    have hlock : s.lock = some t := h1 t (Or.inr hpc)
    obtain ⟨mid, rest, htr, hmid, hclosed⟩ := h2 t hlock
    refine ⟨?_, ?_, ?_⟩
    · intro u hu
      exfalso
      simp only [inCritical] at hu
      by_cases htu : u = t
      · subst htu
        rw [Function.update_same] at hu
        rcases hu with h | h <;> simp at h
      · rw [Function.update_noteq htu] at hu
        have hcu := h1 u hu
        rw [hlock] at hcu
        exact htu (Option.some.inj hcu).symm
    · intro u hu
      simp at hu
    · intro _
      show ClosedTrace (.release t :: s.trace)
      rw [htr]
      exact ClosedTrace.seg t mid rest hmid hclosed

/-- C9: for every Supervisor, at most one `run()` call is active against its
child process at any time: in every state reachable by any interleaving of `n`
concurrent `run()` calls, at most one call is inside its write-then-read
critical section (callers blocked on `async with self._lock` queue), and the
recorded trace of command-byte writes and response-byte reads is serialized
into lock-delimited per-call sections with no interleaving of two calls' I/O
events. -/
theorem run_serialized {n : Nat} (s : BridgeState n) (hreach : ReachableBridge s) :
    (∀ t u, inCritical s t → inCritical s u → t = u) ∧ SerializedTrace s.trace := by
  have hinv : BridgeInv s := by
    induction hreach with
    | refl => exact bridgeInv_init n
    | tail hsteps hstep ih => exact bridgeInv_step ih hstep
  obtain ⟨h1, h2, h3⟩ := hinv
  constructor
  · intro t u ht hu
    have et := h1 t ht
    have eu := h1 u hu
    rw [et] at eu
    exact Option.some.inj eu
  · cases hlock : s.lock with
    | none => exact Or.inl (h3 hlock)
    | some t =>
      obtain ⟨mid, rest, htr, hmid, hclosed⟩ := h2 t hlock
      exact Or.inr ⟨t, mid, rest, htr, hmid, hclosed⟩

/-- Witness for C9 at the concrete initial two-caller state, reachable by the
empty interleaving. -/
theorem run_serialized_witness :
    (∀ t u : Fin 2, inCritical (initBridge 2) t → inCritical (initBridge 2) u → t = u) ∧
    SerializedTrace (initBridge 2).trace :=
  run_serialized (initBridge 2) Relation.ReflTransGen.refl

end Anchor
